import Mathlib

/-!
Verification of the gitaly mutating-operation protocol layer.

The handlers below are shallow embeddings of the Ruby service
`GitalyServer::OperationsService` (src/unnamed/part_000) and, for squash, the
Go entry point `internal/service/operations/squash.go`.  The underlying git
mutation engine (`Gitlab::Git::Repository#merge`, `#add_tag`, ...) is not part
of the sources; those primitives are modelled from the spec, each with a doc
comment saying so.
-/

namespace Gitaly

/-- A ref store: a finite map from full ref names (`refs/heads/x`,
`refs/tags/v1`) to object ids, as an association list.  Models the external
ref-store collaborator that the spec says serializes atomic ref updates. -/
abbrev RefStore := List (String × String)

def RefStore.lookup : RefStore → String → Option String
  | [], _ => none
  | (k, v) :: rest, name => if k = name then some v else RefStore.lookup rest name

def RefStore.set : RefStore → String → String → RefStore
  | [], name, v => [(name, v)]
  | (k, w) :: rest, name, v =>
      if k = name then (name, v) :: rest else (k, w) :: RefStore.set rest name v

def RefStore.del : RefStore → String → RefStore
  | [], _ => []
  | (k, w) :: rest, name =>
      if k = name then RefStore.del rest name else (k, w) :: RefStore.del rest name

/-- Hook outcome for the pre-receive/update phase of the hook chain
(spec data model: `Allowed` or `Rejected(message)`, the message being the
hook's captured output). -/
inductive HookOutcome
  | allowed
  | rejected (message : String)
deriving DecidableEq

/-- Transport-level RPC failure (a raised `GRPC::BadStatus`). -/
inductive GrpcError
  | invalidArgument (msg : String)
  | failedPrecondition (msg : String)
  | unknown (msg : String)
deriving DecidableEq

def GrpcError.isInvalidArgument : GrpcError → Bool
  | .invalidArgument _ => true
  | _ => false

/-- Typed `Gitlab::Git` exceptions raised by the mutation engine, as rescued
by the handlers in src/unnamed/part_000. -/
inductive GitExc
  | invalidRef (msg : String)
  | tagExistsError
  | commitError (msg : String)
  | createTreeError (msg : String)
  | preReceiveError (msg : String)
  | gitError (msg : String)
  | indexError (msg : String)
  | argumentError (msg : String)
  | noMethodError (msg : String)
deriving DecidableEq

/-- An exception escaping a handler body: either a typed engine exception that
the handler did not rescue, or a `GRPC::BadStatus` raised deliberately. -/
inductive RubyExc
  | git (e : GitExc)
  | grpc (e : GrpcError)
deriving DecidableEq

def GitExc.describe : GitExc → String
  | .invalidRef m => m
  | .tagExistsError => "tag exists"
  | .commitError m => m
  | .createTreeError m => m
  | .preReceiveError m => m
  | .gitError m => m
  | .indexError m => m
  | .argumentError m => m
  | .noMethodError m => m

/-- Modelled from the spec: `bridge_exceptions` (gitaly-ruby `Utils`, not under
src/) re-raises `GRPC::BadStatus` unchanged and converts any other exception
into a transport-level failure with a generic code. -/
def bridge_exceptions : RubyExc → GrpcError
  | .grpc g => g
  | .git e => .unknown e.describe

/-- Ruby `String#blank?`: empty or whitespace-only. -/
def rubyBlank (s : String) : Bool := s.data.all (·.isWhitespace)

/-- Ruby `String#present?`: not blank. -/
def rubyPresent (s : String) : Bool := !(rubyBlank s)

/-- Actor identity (`Gitaly::User`); only its presence matters here. -/
structure User where
  glId : String
deriving DecidableEq

/-- `Gitlab::Git::OperationService` branch update result
(`{newrev, repo_created, branch_created}`). -/
structure UpdateResult where
  newrev : String
  repoCreated : Bool
  branchCreated : Bool
deriving DecidableEq

/-- `Gitaly::OperationBranchUpdate` proto message. -/
structure OperationBranchUpdate where
  commitId : String
  repoCreated : Bool
  branchCreated : Bool
deriving DecidableEq

/-- `branch_update_result` (src/unnamed/part_000 lines 314-322): `nil` maps to
no message, otherwise the update result is repackaged field by field. -/
def branch_update_result : Option UpdateResult → Option OperationBranchUpdate
  | none => none
  | some u => some ⟨u.newrev, u.repoCreated, u.branchCreated⟩

/-! ## UserMergeBranch (src/unnamed/part_000 lines 105-128) -/

/-- First client message of a `UserMergeBranch` session. -/
structure UserMergeBranchFirstRequest where
  user : Option User
  commitId : String
  branch : String
  message : String
deriving DecidableEq

/-- `Gitaly::UserMergeBranchResponse`: proto3 defaults, `commit_id` empty and
`branch_update` absent unless set. -/
structure UserMergeBranchResponse where
  commitId : String := ""
  branchUpdate : Option OperationBranchUpdate := none
deriving DecidableEq

/-- Modelled from the spec: `Gitlab::Git::Repository#merge` is not under src/.
Per spec 4.4, the engine computes the provisional merge commit, yields its id
to the block *before* applying anything; if the block raises, the mutation is
discarded with no ref change and the exception propagates; otherwise the hook
chain runs and, on `Allowed`, the target branch ref is atomically updated to
the provisional commit and a branch update result is returned; a hook
rejection raises `PreReceiveError` with the captured output and leaves the ref
untouched.  The block returns the responses it streamed plus an optional
exception. -/
def repository_merge (store : RefStore) (hook : HookOutcome) (provisional : String)
    (targetBranch : String)
    (block : String → List UserMergeBranchResponse × Option GrpcError) :
    List UserMergeBranchResponse × RefStore × Except RubyExc (Option UpdateResult) :=
  let streamed := (block provisional).1
  match (block provisional).2 with
  | some g => (streamed, store, .error (.grpc g))
  | none =>
      match hook with
      | .rejected m => (streamed, store, .error (.git (.preReceiveError m)))
      | .allowed =>
          (streamed, store.set ("refs/heads/" ++ targetBranch) provisional,
           .ok (some ⟨provisional, false, false⟩))

/-- `user_merge_branch` (src/unnamed/part_000 lines 105-128): streams the
provisional commit id, then reads the second client message; `apply = false`
raises `GRPC::FailedPrecondition` with message `merge aborted by client` from
inside the block; on success the terminal message carries the branch update.
Returns (streamed responses, final ref store, session outcome). -/
def user_merge_branch (store : RefStore) (hook : HookOutcome) (provisional : String)
    (first : UserMergeBranchFirstRequest) (secondApply : Bool) :
    List UserMergeBranchResponse × RefStore × Except GrpcError Unit :=
  let block := fun commitId =>
    ([{ commitId := commitId }],
     if secondApply then none
     else some (.failedPrecondition "merge aborted by client"))
  match repository_merge store hook provisional first.branch block with
  | (streamed, store2, .error e) => (streamed, store2, .error (bridge_exceptions e))
  | (streamed, store2, .ok r) =>
      (streamed ++ [{ branchUpdate := branch_update_result r }], store2, .ok ())

theorem RefStore.lookup_set (s : RefStore) (k v : String) :
    RefStore.lookup (RefStore.set s k v) k = some v := by
  induction s with
  | nil => simp [RefStore.set, RefStore.lookup]
  | cons hd tl ih =>
      obtain ⟨k0, v0⟩ := hd
      by_cases h : k0 = k
      · simp [RefStore.set, RefStore.lookup, h]
      · simp [RefStore.set, RefStore.lookup, h, ih]

/-- C1: a `UserMergeBranch` session whose second message has `apply = false`
terminates with `FailedPrecondition` carrying `merge aborted by client`,
streams only the provisional-commit message (no `branch_update`), and leaves
the ref store — in particular the target branch's ref — exactly as it was. -/
theorem merge_abort_leaves_ref_unchanged
    (store : RefStore) (hook : HookOutcome) (provisional : String)
    (first : UserMergeBranchFirstRequest) :
    user_merge_branch store hook provisional first false =
      ([{ commitId := provisional, branchUpdate := none }], store,
       .error (.failedPrecondition "merge aborted by client")) := by
  rfl

/-- C2: a `UserMergeBranch` session with `apply = true` and passing hooks
streams the provisional commit id first, then a terminal `branch_update`
message, and afterwards the target branch's ref equals the commit id streamed
in that first server message. -/
theorem merge_apply_ref_equals_streamed_commit
    (store : RefStore) (provisional : String)
    (first : UserMergeBranchFirstRequest) :
    user_merge_branch store .allowed provisional first true =
      ([{ commitId := provisional, branchUpdate := none },
        { commitId := "", branchUpdate := some ⟨provisional, false, false⟩ }],
       store.set ("refs/heads/" ++ first.branch) provisional, .ok ()) ∧
    RefStore.lookup
        (user_merge_branch store .allowed provisional first true).2.1
        ("refs/heads/" ++ first.branch) = some provisional := by
  constructor
  · rfl
  · show RefStore.lookup (RefStore.set store _ provisional) _ = some provisional
    exact RefStore.lookup_set store _ provisional

/-! ## UserCreateTag / UserDeleteTag (src/unnamed/part_000 lines 5-62) -/

/-- `Gitaly::Tag` as built by `user_create_tag`. -/
structure Tag where
  name : String
  id : String
  message : String
deriving DecidableEq

structure UserCreateTagRequest where
  user : Option User
  tagName : String
  targetRevision : String
  message : String
deriving DecidableEq

/-- `Gitaly::UserCreateTagResponse` with proto3 defaults. -/
structure UserCreateTagResponse where
  tag : Option Tag := none
  tagExists : Bool := false
  preReceiveError : String := ""
deriving DecidableEq

/-- Modelled from the spec: `Gitlab::Git::Repository#add_tag` is not under
src/.  Per spec 4.1/4.3 it raises `InvalidRef` when the target revision does
not resolve to an object (`target` is the resolution result supplied by the
black-box object database), raises `TagExistsError` when the tag ref already
exists, otherwise runs the hook chain (rejection raises `PreReceiveError`
with the captured output and writes nothing) and on success writes the tag
ref and returns the created tag. -/
def repo_add_tag (store : RefStore) (hook : HookOutcome) (tagName : String)
    (target : Option String) (message : String) :
    RefStore × Except GitExc Tag :=
  match target with
  | none => (store, .error (.invalidRef ("revision not found: " ++ tagName)))
  | some oid =>
      match store.lookup ("refs/tags/" ++ tagName) with
      | some _ => (store, .error .tagExistsError)
      | none =>
          match hook with
          | .rejected m => (store, .error (.preReceiveError m))
          | .allowed =>
              (store.set ("refs/tags/" ++ tagName) oid, .ok ⟨tagName, oid, message⟩)

/-- `user_create_tag` (src/unnamed/part_000 lines 5-41): validates user, tag
name and target revision (raising `InvalidArgument`), then delegates to
`add_tag`; rescues `InvalidRef` into `FailedPrecondition`, `TagExistsError`
into a response with the exists flag, `PreReceiveError` into
`pre_receive_error`. -/
def user_create_tag (store : RefStore) (hook : HookOutcome) (target : Option String)
    (req : UserCreateTagRequest) : RefStore × Except GrpcError UserCreateTagResponse :=
  if req.user = none then
    (store, .error (bridge_exceptions (.grpc (.invalidArgument "empty user"))))
  else if !(rubyPresent req.tagName) then
    (store, .error (bridge_exceptions (.grpc (.invalidArgument "empty tag name"))))
  else if !(rubyPresent req.targetRevision) then
    (store, .error (bridge_exceptions (.grpc (.invalidArgument "empty target revision"))))
  else
    match repo_add_tag store hook req.tagName target req.message with
    | (s, .ok tag) => (s, .ok { tag := some tag })
    | (s, .error (.invalidRef m)) =>
        (s, .error (bridge_exceptions (.grpc (.failedPrecondition m))))
    | (s, .error .tagExistsError) => (s, .ok { tagExists := true })
    | (s, .error (.preReceiveError m)) => (s, .ok { preReceiveError := m })
    | (s, .error e) => (s, .error (bridge_exceptions (.git e)))

structure UserDeleteTagRequest where
  user : Option User
  tagName : String
deriving DecidableEq

structure UserDeleteTagResponse where
  preReceiveError : String := ""
deriving DecidableEq

/-- Modelled from the spec: `Gitlab::Git::Repository#rm_tag` is not under
src/.  Per spec 4.3 and the testable property for DeleteTag, deleting a tag
that does not exist fails with a transport-level `FailedPrecondition` whose
message references the missing ref; otherwise the hook chain runs (rejection
raises `PreReceiveError`, no write) and on success the tag ref is removed. -/
def repo_rm_tag (store : RefStore) (hook : HookOutcome) (tagName : String) :
    RefStore × Except RubyExc Unit :=
  match store.lookup ("refs/tags/" ++ tagName) with
  | none =>
      (store, .error (.grpc (.failedPrecondition
        ("refs/tags/" ++ tagName ++ " not found"))))
  | some _ =>
      match hook with
      | .rejected m => (store, .error (.git (.preReceiveError m)))
      | .allowed => (store.del ("refs/tags/" ++ tagName), .ok ())

/-- `user_delete_tag` (src/unnamed/part_000 lines 43-62): validates user and
tag name (raising `InvalidArgument`), delegates to `rm_tag`, and rescues only
`PreReceiveError` into the response field; every other exception escapes
through `bridge_exceptions`. -/
def user_delete_tag (store : RefStore) (hook : HookOutcome)
    (req : UserDeleteTagRequest) : RefStore × Except GrpcError UserDeleteTagResponse :=
  if req.user = none then
    (store, .error (bridge_exceptions (.grpc (.invalidArgument "empty user"))))
  else if rubyBlank req.tagName then
    (store, .error (bridge_exceptions (.grpc (.invalidArgument "empty tag name"))))
  else
    match repo_rm_tag store hook req.tagName with
    | (s, .ok ()) => (s, .ok {})
    | (s, .error (.git (.preReceiveError m))) => (s, .ok { preReceiveError := m })
    | (s, .error e) => (s, .error (bridge_exceptions e))

/-! ## UserCreateBranch / UserDeleteBranch (src/unnamed/part_000 lines 64-103) -/

structure UserCreateBranchRequest where
  user : Option User
  branchName : String
  startPoint : String
deriving DecidableEq

/-- `Gitaly::Branch` as built by `user_create_branch` (the target commit is
reduced to its id). -/
structure Branch where
  name : String
  targetCommitId : String
deriving DecidableEq

structure UserCreateBranchResponse where
  branch : Option Branch := none
  preReceiveError : String := ""
deriving DecidableEq

/-- Modelled from the spec: `Gitlab::Git::Repository#add_branch` is not under
src/.  Per spec 4.1/4.3 it raises `InvalidRef`/`CommitError` when the start
point does not resolve (`target` is the resolution result), otherwise runs the
hook chain (rejection raises `PreReceiveError`, no write) and on success
writes the branch ref and returns the created branch. -/
def repo_add_branch (store : RefStore) (hook : HookOutcome) (branchName : String)
    (target : Option String) : RefStore × Except GitExc Branch :=
  match target with
  | none => (store, .error (.commitError ("invalid start point: " ++ branchName)))
  | some oid =>
      match hook with
      | .rejected m => (store, .error (.preReceiveError m))
      | .allowed =>
          (store.set ("refs/heads/" ++ branchName) oid, .ok ⟨branchName, oid⟩)

/-- `user_create_branch` (src/unnamed/part_000 lines 64-88): validates the
start point and the user (raising `InvalidArgument`; note the Ruby handler
does not check the branch name), delegates to `add_branch`, rescues
`InvalidRef`/`CommitError` into `FailedPrecondition` and `PreReceiveError`
into the response field. -/
def user_create_branch (store : RefStore) (hook : HookOutcome) (target : Option String)
    (req : UserCreateBranchRequest) :
    RefStore × Except GrpcError UserCreateBranchResponse :=
  if req.startPoint = "" then
    (store, .error (bridge_exceptions (.grpc (.invalidArgument "empty start_point"))))
  else if req.user = none then
    (store, .error (bridge_exceptions (.grpc (.invalidArgument "empty user"))))
  else
    match repo_add_branch store hook req.branchName target with
    | (s, .ok branch) => (s, .ok { branch := some branch })
    | (s, .error (.invalidRef m)) =>
        (s, .error (bridge_exceptions (.grpc (.failedPrecondition m))))
    | (s, .error (.commitError m)) =>
        (s, .error (bridge_exceptions (.grpc (.failedPrecondition m))))
    | (s, .error (.preReceiveError m)) => (s, .ok { preReceiveError := m })
    | (s, .error e) => (s, .error (bridge_exceptions (.git e)))

/-- Modelled from the spec: the Go-level `UserCreateBranch` entry point of this
repository is not under src/ (src has only the analogous Go validation for
squash, internal/service/operations/squash.go).  Per spec 4.1, the call fails
with `InvalidArgument` when the user is absent, the branch name is empty, or
the start point is empty, before any mutation is attempted; otherwise the
request is forwarded to the Ruby handler. -/
def user_create_branch_call (store : RefStore) (hook : HookOutcome)
    (target : Option String) (req : UserCreateBranchRequest) :
    RefStore × Except GrpcError UserCreateBranchResponse :=
  if req.branchName = "" then
    (store, .error (.invalidArgument "empty branch name"))
  else if req.user = none then
    (store, .error (.invalidArgument "empty user"))
  else if req.startPoint = "" then
    (store, .error (.invalidArgument "empty start point"))
  else
    user_create_branch store hook target req

structure UserDeleteBranchRequest where
  user : Option User
  branchName : String
deriving DecidableEq

structure UserDeleteBranchResponse where
  preReceiveError : String := ""
deriving DecidableEq

/-- Modelled from the spec: `Gitlab::Git::Repository#rm_branch` is not under
src/.  Per spec 4.3, deleting an absent branch fails precondition; otherwise
the hook chain runs (rejection raises `PreReceiveError`, no write) and on
success the branch ref is removed. -/
def repo_rm_branch (store : RefStore) (hook : HookOutcome) (branchName : String) :
    RefStore × Except RubyExc Unit :=
  match store.lookup ("refs/heads/" ++ branchName) with
  | none =>
      (store, .error (.grpc (.failedPrecondition
        ("refs/heads/" ++ branchName ++ " not found"))))
  | some _ =>
      match hook with
      | .rejected m => (store, .error (.git (.preReceiveError m)))
      | .allowed => (store.del ("refs/heads/" ++ branchName), .ok ())

/-- `user_delete_branch` (src/unnamed/part_000 lines 90-103): no field
validation; delegates to `rm_branch` and rescues only `PreReceiveError` into
the response field. -/
def user_delete_branch (store : RefStore) (hook : HookOutcome)
    (req : UserDeleteBranchRequest) :
    RefStore × Except GrpcError UserDeleteBranchResponse :=
  match repo_rm_branch store hook req.branchName with
  | (s, .ok ()) => (s, .ok {})
  | (s, .error (.git (.preReceiveError m))) => (s, .ok { preReceiveError := m })
  | (s, .error e) => (s, .error (bridge_exceptions e))

/-! ## UserFFBranch (src/unnamed/part_000 lines 130-148) -/

structure UserFFBranchRequest where
  user : Option User
  commitId : String
  branch : String
deriving DecidableEq

structure UserFFBranchResponse where
  branchUpdate : Option OperationBranchUpdate := none
  preReceiveError : String := ""
deriving DecidableEq

/-- Modelled from the spec: `Gitlab::Git::Repository#ff_merge` is not under
src/.  Per spec 4.3, a malformed commit id raises `ArgumentError`, a merge
that would not be a pure fast-forward raises `CommitError`, otherwise the hook
chain runs (rejection raises `PreReceiveError`, no write) and on success the
branch ref is atomically moved to the commit id.  `validOid` and `isFF` are
the black-box answers of the object database. -/
def repo_ff_merge (store : RefStore) (hook : HookOutcome) (commitId branch : String)
    (validOid isFF : Bool) : RefStore × Except GitExc UpdateResult :=
  if !validOid then
    (store, .error (.argumentError ("invalid commit id: " ++ commitId)))
  else if !isFF then
    (store, .error (.commitError "not a fast-forward merge"))
  else
    match hook with
    | .rejected m => (store, .error (.preReceiveError m))
    | .allowed =>
        (store.set ("refs/heads/" ++ branch) commitId, .ok ⟨commitId, false, false⟩)

/-- `user_ff_branch` (src/unnamed/part_000 lines 130-148): delegates to
`ff_merge`; rescues `CommitError` into `FailedPrecondition`, `ArgumentError`
into `InvalidArgument`, `PreReceiveError` into the response field. -/
def user_ff_branch (store : RefStore) (hook : HookOutcome) (validOid isFF : Bool)
    (req : UserFFBranchRequest) : RefStore × Except GrpcError UserFFBranchResponse :=
  match repo_ff_merge store hook req.commitId req.branch validOid isFF with
  | (s, .ok r) => (s, .ok { branchUpdate := branch_update_result (some r) })
  | (s, .error (.commitError m)) =>
      (s, .error (bridge_exceptions (.grpc (.failedPrecondition m))))
  | (s, .error (.argumentError m)) =>
      (s, .error (bridge_exceptions (.grpc (.invalidArgument m))))
  | (s, .error (.preReceiveError m)) => (s, .ok { preReceiveError := m })
  | (s, .error e) => (s, .error (bridge_exceptions (.git e)))

/-! ## UserCherryPick / UserRevert (src/unnamed/part_000 lines 150-206) -/

structure UserCherryPickRequest where
  user : Option User
  commitId : String
  branchName : String
  message : String
deriving DecidableEq

structure UserCherryPickResponse where
  branchUpdate : Option OperationBranchUpdate := none
  createTreeError : String := ""
  commitError : String := ""
  preReceiveError : String := ""
deriving DecidableEq

/-- Scenario parameters for the black-box cherry-pick/revert engine: whether
building the new tree conflicts, whether committing fails, and the id of the
new commit on success. -/
structure PickScenario where
  treeConflict : Option String
  commitFailure : Option String
  newCommitId : String
deriving DecidableEq

/-- Modelled from the spec: `Gitlab::Git::Repository#cherry_pick` and
`#revert` are not under src/.  Per spec 4.3, applying the commit's diff may
raise `CreateTreeError` on a tree-construction conflict or `CommitError` on a
commit failure, both before any ref write; otherwise the hook chain runs
(rejection raises `PreReceiveError`, no write) and on success the branch ref
is updated to the new commit. -/
def repo_pick_or_revert (store : RefStore) (hook : HookOutcome) (branchName : String)
    (sc : PickScenario) : RefStore × Except GitExc UpdateResult :=
  match sc.treeConflict with
  | some m => (store, .error (.createTreeError m))
  | none =>
      match sc.commitFailure with
      | some m => (store, .error (.commitError m))
      | none =>
          match hook with
          | .rejected m => (store, .error (.preReceiveError m))
          | .allowed =>
              (store.set ("refs/heads/" ++ branchName) sc.newCommitId,
               .ok ⟨sc.newCommitId, false, false⟩)

/-- `user_cherry_pick` (src/unnamed/part_000 lines 150-177): delegates to
`cherry_pick`; rescues `CreateTreeError`, `CommitError` and `PreReceiveError`
into the three distinct response fields. -/
def user_cherry_pick (store : RefStore) (hook : HookOutcome) (sc : PickScenario)
    (req : UserCherryPickRequest) :
    RefStore × Except GrpcError UserCherryPickResponse :=
  match repo_pick_or_revert store hook req.branchName sc with
  | (s, .ok r) => (s, .ok { branchUpdate := branch_update_result (some r) })
  | (s, .error (.createTreeError m)) => (s, .ok { createTreeError := m })
  | (s, .error (.commitError m)) => (s, .ok { commitError := m })
  | (s, .error (.preReceiveError m)) => (s, .ok { preReceiveError := m })
  | (s, .error e) => (s, .error (bridge_exceptions (.git e)))

structure UserRevertResponse where
  branchUpdate : Option OperationBranchUpdate := none
  createTreeError : String := ""
  commitError : String := ""
  preReceiveError : String := ""
deriving DecidableEq

/-- `user_revert` (src/unnamed/part_000 lines 179-206): identical rescue
structure to `user_cherry_pick` over the revert engine call. -/
def user_revert (store : RefStore) (hook : HookOutcome) (sc : PickScenario)
    (req : UserCherryPickRequest) :
    RefStore × Except GrpcError UserRevertResponse :=
  match repo_pick_or_revert store hook req.branchName sc with
  | (s, .ok r) => (s, .ok { branchUpdate := branch_update_result (some r) })
  | (s, .error (.createTreeError m)) => (s, .ok { createTreeError := m })
  | (s, .error (.commitError m)) => (s, .ok { commitError := m })
  | (s, .error (.preReceiveError m)) => (s, .ok { preReceiveError := m })
  | (s, .error e) => (s, .error (bridge_exceptions (.git e)))

/-! ## UserRebase (src/unnamed/part_000 lines 208-227) -/

structure UserRebaseRequest where
  user : Option User
  rebaseId : String
  branch : String
  branchSha : String
  remoteBranch : String
deriving DecidableEq

structure UserRebaseResponse where
  rebaseSha : String := ""
  preReceiveError : String := ""
  gitError : String := ""
deriving DecidableEq

/-- Modelled from the spec: `Gitlab::Git::Repository#rebase` is not under
src/.  Per spec 4.3, any git-level failure (conflict, network, missing ref)
raises `GitError` before the ref is touched; a hook rejection raises
`PreReceiveError` with the captured output and writes nothing; on success the
branch ref is moved to the rebased head and its sha returned. -/
def repo_rebase (store : RefStore) (hook : HookOutcome) (branch : String)
    (gitFailure : Option String) (rebasedSha : String) :
    RefStore × Except GitExc String :=
  match gitFailure with
  | some m => (store, .error (.gitError m))
  | none =>
      match hook with
      | .rejected m => (store, .error (.preReceiveError m))
      | .allowed => (store.set ("refs/heads/" ++ branch) rebasedSha, .ok rebasedSha)

/-- `user_rebase` (src/unnamed/part_000 lines 208-227): delegates to `rebase`;
rescues `PreReceiveError` and `GitError` into the two response fields. -/
def user_rebase (store : RefStore) (hook : HookOutcome) (gitFailure : Option String)
    (rebasedSha : String) (req : UserRebaseRequest) :
    RefStore × Except GrpcError UserRebaseResponse :=
  match repo_rebase store hook req.branch gitFailure rebasedSha with
  | (s, .ok sha) => (s, .ok { rebaseSha := sha })
  | (s, .error (.preReceiveError m)) => (s, .ok { preReceiveError := m })
  | (s, .error (.gitError m)) => (s, .ok { gitError := m })
  | (s, .error e) => (s, .error (bridge_exceptions (.git e)))

/-! ## UserSquash (src/internal/service/operations/squash.go and
src/unnamed/part_000 lines 261-280) -/

/-- `Gitaly::Repository` locator; only presence matters for validation. -/
structure Repository where
  storageName : String
  relativePath : String
deriving DecidableEq

structure UserSquashRequest where
  repository : Option Repository
  user : Option User
  squashId : String
  branch : String
  startSha : String
  endSha : String
  commitMessage : String
  author : Option User
deriving DecidableEq

structure UserSquashResponse where
  squashSha : String := ""
  gitError : String := ""
deriving DecidableEq

/-- `validateUserSquashRequest` (squash.go lines 30-65): the exact sequence of
emptiness checks, first failure wins. -/
def validateUserSquashRequest (req : UserSquashRequest) : Option String :=
  if req.repository = none then some "empty Repository"
  else if req.user = none then some "empty User"
  else if req.squashId = "" then some "empty SquashId"
  else if req.branch = "" then some "empty Branch"
  else if req.startSha = "" then some "empty StartSha"
  else if req.endSha = "" then some "empty EndSha"
  else if req.commitMessage = "" then some "empty CommitMessage"
  else if req.author = none then some "empty Author"
  else none

/-- Modelled from the spec: `Gitlab::Git::Repository#squash` is not under
src/.  Per spec 4.3, an infrastructure failure during squashing raises
`GitError`; on success the squashed commit sha is returned (the branch ref is
not rewritten by this call). -/
def repo_squash (gitFailure : Option String) (squashedSha : String) :
    Except GitExc String :=
  match gitFailure with
  | some m => .error (.gitError m)
  | none => .ok squashedSha

/-- `user_squash` (src/unnamed/part_000 lines 261-280): delegates to `squash`
and rescues `GitError` into the `git_error` response field. -/
def user_squash (gitFailure : Option String) (squashedSha : String) :
    Except GrpcError UserSquashResponse :=
  match repo_squash gitFailure squashedSha with
  | .ok sha => .ok { squashSha := sha }
  | .error (.gitError m) => .ok { gitError := m }
  | .error e => .error (bridge_exceptions (.git e))

/-- `UserSquash` (squash.go lines 13-28): validates the request, returning
`InvalidArgument` on failure, otherwise forwards to the Ruby handler. -/
def UserSquash (gitFailure : Option String) (squashedSha : String)
    (req : UserSquashRequest) : Except GrpcError UserSquashResponse :=
  match validateUserSquashRequest req with
  | some m => .error (.invalidArgument ("UserSquash: " ++ m))
  | none => user_squash gitFailure squashedSha

/-! ## UserCommitFiles (src/unnamed/part_000 lines 229-259, 284-312) -/

/-- `Gitaly::UserCommitFilesActionHeader` as consumed by
`commit_files_action_from_gitaly_request`. -/
structure CommitActionHeader where
  action : String
  filePath : String
  previousPath : String
  base64Content : Bool
deriving DecidableEq

/-- The per-action hash built by the handler (action, file_path,
previous_path, encoding, content buffer). -/
structure CommitAction where
  action : String
  filePath : String
  previousPath : String
  encoding : String
  content : String
deriving DecidableEq

/-- Ruby `String#downcase` (ASCII), character by character. -/
def rubyDowncase (s : String) : String := ⟨s.data.map Char.toLower⟩

/-- `commit_files_action_from_gitaly_request` (src/unnamed/part_000 lines
304-312): downcases the action, copies the paths, selects base64 encoding,
and opens an empty content buffer. -/
def commit_files_action_from_gitaly_request (h : CommitActionHeader) : CommitAction :=
  { action := rubyDowncase h.action, filePath := h.filePath,
    previousPath := h.previousPath,
    encoding := if h.base64Content then "base64" else "",
    content := "" }

/-- One `UserCommitFilesRequest` action message after the stream header:
either a new action header or a raw content chunk. -/
inductive CommitActionMsg
  | header (h : CommitActionHeader)
  | content (c : String)
deriving DecidableEq

/-- Ruby `actions.last[:content] << action.content`: appends to the content
buffer of the last action; on an empty list Ruby calls `[]` on `nil`, which
raises `NoMethodError` — modelled as `none`. -/
def appendLastContent : List CommitAction → String → Option (List CommitAction)
  | [], _ => none
  | [a], c => some [{ a with content := a.content ++ c }]
  | a :: b :: rest, c => (appendLastContent (b :: rest) c).map (a :: ·)

/-- The assembly loop of `user_commit_files` (src/unnamed/part_000 lines
236-244): a header message opens a new action at the end of the list, a
content message appends to the most recently opened action. -/
def assemble_actions (acts : List CommitAction) :
    List CommitActionMsg → Except RubyExc (List CommitAction)
  | [] => .ok acts
  | .header h :: rest =>
      assemble_actions (acts ++ [commit_files_action_from_gitaly_request h]) rest
  | .content c :: rest =>
      match appendLastContent acts c with
      | none => .error (.git (.noMethodError "undefined method [] for nil"))
      | some acts2 => assemble_actions acts2 rest

/-- Header message of a `UserCommitFiles` stream (fields relevant here). -/
structure CommitFilesHeader where
  user : Option User
  branchName : String
  commitMessage : String
deriving DecidableEq

structure UserCommitFilesResponse where
  branchUpdate : Option OperationBranchUpdate := none
  indexError : String := ""
  preReceiveError : String := ""
deriving DecidableEq

/-- Modelled from the spec: `Gitlab::Git::Repository#multi_action` is not
under src/.  Per spec 4.3, an index/tree-construction problem raises
`IndexError` before any ref write; otherwise the hook chain runs (rejection
raises `PreReceiveError`, no write) and on success the branch ref is set to
the new commit. -/
def repo_multi_action (store : RefStore) (hook : HookOutcome) (branchName : String)
    (indexProblem : Option String) (newCommitId : String) :
    RefStore × Except GitExc UpdateResult :=
  match indexProblem with
  | some m => (store, .error (.indexError m))
  | none =>
      match hook with
      | .rejected m => (store, .error (.preReceiveError m))
      | .allowed =>
          (store.set ("refs/heads/" ++ branchName) newCommitId,
           .ok ⟨newCommitId, false, false⟩)

/-- `user_commit_files` (src/unnamed/part_000 lines 229-259): assembles the
action plan from the stream, then runs `multi_action`; rescues `IndexError`
and `PreReceiveError` into the two response fields.  An exception during
assembly (e.g. `NoMethodError`) is not rescued and escapes through
`bridge_exceptions`. -/
def user_commit_files (store : RefStore) (hook : HookOutcome)
    (indexProblem : Option String) (newCommitId : String)
    (header : CommitFilesHeader) (msgs : List CommitActionMsg) :
    RefStore × Except GrpcError UserCommitFilesResponse :=
  match assemble_actions [] msgs with
  | .error e => (store, .error (bridge_exceptions e))
  | .ok _ =>
      match repo_multi_action store hook header.branchName indexProblem newCommitId with
      | (s, .ok r) => (s, .ok { branchUpdate := branch_update_result (some r) })
      | (s, .error (.indexError m)) => (s, .ok { indexError := m })
      | (s, .error (.preReceiveError m)) => (s, .ok { preReceiveError := m })
      | (s, .error e) => (s, .error (bridge_exceptions (.git e)))

/-! ## Claims C4-C8 -/

/-- C4: `UserCreateTag` on a tag that already exists answers a successful
response whose exists flag is set (no tag payload, no transport error),
whereas a target revision that does not resolve fails with
`FailedPrecondition`; in both cases the ref store is untouched. -/
theorem create_tag_exists_flag_and_unresolved_revision
    (store : RefStore) (hook : HookOutcome) (req : UserCreateTagRequest)
    (u : User) (hu : req.user = some u)
    (hn : rubyPresent req.tagName = true)
    (hr : rubyPresent req.targetRevision = true) :
    (∀ oid v, store.lookup ("refs/tags/" ++ req.tagName) = some v →
      user_create_tag store hook (some oid) req =
        (store, .ok { tag := none, tagExists := true, preReceiveError := "" })) ∧
    user_create_tag store hook none req =
      (store, .error (.failedPrecondition ("revision not found: " ++ req.tagName))) := by
  constructor
  · intro oid v hv
    simp [user_create_tag, repo_add_tag, hu, hn, hr, hv]
  · simp [user_create_tag, repo_add_tag, hu, hn, hr, bridge_exceptions]

theorem create_tag_exists_flag_witness :
    user_create_tag [("refs/tags/v1", "abc")] .allowed (some "def0")
        ⟨some ⟨"u"⟩, "v1", "HEAD", "msg"⟩ =
      ([("refs/tags/v1", "abc")],
       .ok { tag := none, tagExists := true, preReceiveError := "" }) ∧
    user_create_tag [("refs/tags/v1", "abc")] .allowed none
        ⟨some ⟨"u"⟩, "v1", "HEAD", "msg"⟩ =
      ([("refs/tags/v1", "abc")],
       .error (.failedPrecondition "revision not found: v1")) := by
  have h := create_tag_exists_flag_and_unresolved_revision
    [("refs/tags/v1", "abc")] .allowed ⟨some ⟨"u"⟩, "v1", "HEAD", "msg"⟩
    ⟨"u"⟩ rfl (by decide) (by decide)
  exact ⟨h.1 "def0" "abc" rfl, h.2⟩

/-- C5: the `UserCreateBranch` call fails with an `InvalidArgument` transport
error, with the ref store untouched, whenever the user is absent, the branch
name is empty, or the start point is empty. -/
theorem create_branch_invalid_argument
    (store : RefStore) (hook : HookOutcome) (target : Option String)
    (req : UserCreateBranchRequest)
    (h : req.user = none ∨ req.branchName = "" ∨ req.startPoint = "") :
    (user_create_branch_call store hook target req).1 = store ∧
    ∃ m, (user_create_branch_call store hook target req).2 =
      .error (.invalidArgument m) := by
  by_cases hb : req.branchName = ""
  · simp [user_create_branch_call, hb]
  · by_cases hu : req.user = none
    · simp [user_create_branch_call, hb, hu]
    · by_cases hs : req.startPoint = ""
      · simp [user_create_branch_call, hb, hu, hs]
      · rcases h with h | h | h <;> contradiction

theorem create_branch_invalid_argument_witness :
    (user_create_branch_call [] .allowed none ⟨some ⟨"u"⟩, "", "HEAD"⟩).1 = [] ∧
    ∃ m, (user_create_branch_call [] .allowed none ⟨some ⟨"u"⟩, "", "HEAD"⟩).2 =
      .error (.invalidArgument m) :=
  create_branch_invalid_argument [] .allowed none ⟨some ⟨"u"⟩, "", "HEAD"⟩
    (Or.inr (Or.inl rfl))

/-- C6: `UserDeleteTag` on a tag that does not exist terminates with a
transport-level `FailedPrecondition` whose message names the missing ref
(`refs/tags/<name> not found`), not with a successful response; the store is
untouched. -/
theorem delete_tag_missing_failed_precondition
    (store : RefStore) (hook : HookOutcome) (req : UserDeleteTagRequest)
    (u : User) (hu : req.user = some u) (hn : rubyBlank req.tagName = false)
    (hm : store.lookup ("refs/tags/" ++ req.tagName) = none) :
    user_delete_tag store hook req =
      (store, .error (.failedPrecondition
        ("refs/tags/" ++ req.tagName ++ " not found"))) := by
  simp [user_delete_tag, repo_rm_tag, hu, hn, hm, bridge_exceptions]

theorem delete_tag_missing_failed_precondition_witness :
    user_delete_tag [] .allowed ⟨some ⟨"u"⟩, "v1"⟩ =
      ([], .error (.failedPrecondition "refs/tags/v1 not found")) := by
  have h := delete_tag_missing_failed_precondition [] .allowed ⟨some ⟨"u"⟩, "v1"⟩
    ⟨"u"⟩ rfl (by decide) rfl
  simpa using h

/-- C7: a `UserCherryPick` whose commit application hits a tree-construction
conflict answers a successful response with `create_tree_error` populated and
the other error fields empty, and leaves the ref store (hence the target
branch) unchanged. -/
theorem cherry_pick_tree_conflict_outcome
    (store : RefStore) (hook : HookOutcome) (req : UserCherryPickRequest)
    (m : String) (commitFailure : Option String) (cid : String) :
    user_cherry_pick store hook ⟨some m, commitFailure, cid⟩ req =
      (store, .ok { branchUpdate := none, createTreeError := m,
                    commitError := "", preReceiveError := "" }) := by
  rfl

/-- C8: the Go `UserSquash` entry point rejects with `InvalidArgument` exactly
when one of repository, user, squash id, branch, start sha, end sha, commit
message or author is absent/empty; with all present, a git-level failure is
returned as a successful response carrying `git_error`. -/
theorem squash_invalid_argument_iff
    (gitFailure : Option String) (sha : String) (req : UserSquashRequest) :
    ((∃ m, UserSquash gitFailure sha req = .error (.invalidArgument m)) ↔
      (req.repository = none ∨ req.user = none ∨ req.squashId = "" ∨
       req.branch = "" ∨ req.startSha = "" ∨ req.endSha = "" ∨
       req.commitMessage = "" ∨ req.author = none)) ∧
    (validateUserSquashRequest req = none → ∀ m, gitFailure = some m →
      UserSquash gitFailure sha req = .ok { squashSha := "", gitError := m }) := by
  have hval : validateUserSquashRequest req = none ↔
      (req.repository ≠ none ∧ req.user ≠ none ∧ req.squashId ≠ "" ∧
       req.branch ≠ "" ∧ req.startSha ≠ "" ∧ req.endSha ≠ "" ∧
       req.commitMessage ≠ "" ∧ req.author ≠ none) := by
    unfold validateUserSquashRequest
    split_ifs <;> simp_all
  constructor
  · constructor
    · rintro ⟨m, hm⟩
      by_contra hd
      push_neg at hd
      have hnone : validateUserSquashRequest req = none := hval.mpr hd
      rw [UserSquash, hnone] at hm
      cases hg : gitFailure <;>
        simp [user_squash, repo_squash, hg] at hm
    · intro h
      have hne : validateUserSquashRequest req ≠ none := by
        intro hnone
        have := hval.mp hnone
        tauto
      obtain ⟨m0, hm0⟩ := Option.ne_none_iff_exists'.mp hne
      exact ⟨"UserSquash: " ++ m0, by rw [UserSquash, hm0]⟩
  · intro hnone m hg
    rw [UserSquash, hnone, hg]
    rfl

theorem squash_invalid_argument_iff_witness :
    UserSquash (some "squash conflict") "s"
        ⟨some ⟨"st", "p"⟩, some ⟨"u"⟩, "sq1", "master", "a1", "a2", "msg", some ⟨"a"⟩⟩ =
      .ok { squashSha := "", gitError := "squash conflict" } ∧
    (∃ m, UserSquash (some "squash conflict") "s"
        ⟨none, some ⟨"u"⟩, "sq1", "master", "a1", "a2", "msg", some ⟨"a"⟩⟩ =
      .error (.invalidArgument m)) := by
  constructor
  · exact (squash_invalid_argument_iff (some "squash conflict") "s"
      ⟨some ⟨"st", "p"⟩, some ⟨"u"⟩, "sq1", "master", "a1", "a2", "msg", some ⟨"a"⟩⟩).2
      rfl "squash conflict" rfl
  · exact (squash_invalid_argument_iff (some "squash conflict") "s"
      ⟨none, some ⟨"u"⟩, "sq1", "master", "a1", "a2", "msg", some ⟨"a"⟩⟩).1.mpr
      (Or.inl rfl)

/-! ## Claims C9 and C10: stream assembly -/

/-- Concatenation of the content chunks sent for one action. -/
def joinChunks : List String → String
  | [] => ""
  | c :: cs => c ++ joinChunks cs

/-- The wire messages of a well-formed per-action stream: for each planned
action, its header first, then its content chunks, before the next action's
header. -/
def planMessages : List (CommitActionHeader × List String) → List CommitActionMsg
  | [] => []
  | (h, cs) :: rest => (.header h :: cs.map .content) ++ planMessages rest

/-- The expected reconstruction: each planned action with its chunks
concatenated into the content buffer. -/
def planActions : List (CommitActionHeader × List String) → List CommitAction
  | [] => []
  | (h, cs) :: rest =>
      { commit_files_action_from_gitaly_request h with content := joinChunks cs } ::
        planActions rest

theorem appendLastContent_snoc (acts : List CommitAction) (a : CommitAction)
    (c : String) :
    appendLastContent (acts ++ [a]) c =
      some (acts ++ [{ a with content := a.content ++ c }]) := by
  induction acts with
  | nil => rfl
  | cons x xs ih =>
      cases xs with
      | nil => rfl
      | cons y ys =>
          simp only [List.cons_append, List.append_eq, appendLastContent] at ih ⊢
          rw [ih]
          rfl

theorem assemble_actions_chunks (acts : List CommitAction) (a : CommitAction)
    (cs : List String) (rest : List CommitActionMsg) :
    assemble_actions (acts ++ [a]) (cs.map .content ++ rest) =
      assemble_actions (acts ++ [{ a with content := a.content ++ joinChunks cs }])
        rest := by
  induction cs generalizing a with
  | nil => simp [joinChunks]
  | cons c cs ih =>
      simp only [List.map_cons, List.cons_append, List.append_eq, assemble_actions,
        appendLastContent_snoc]
      rw [ih]
      simp [joinChunks, String.append_assoc]

theorem assemble_actions_plan (plan : List (CommitActionHeader × List String))
    (acts : List CommitAction) :
    assemble_actions acts (planMessages plan) = .ok (acts ++ planActions plan) := by
  induction plan generalizing acts with
  | nil => simp [planMessages, planActions, assemble_actions]
  | cons p rest ih =>
      obtain ⟨h, cs⟩ := p
      simp only [planMessages, planActions, List.cons_append, List.append_eq,
        assemble_actions]
      rw [assemble_actions_chunks, ih]
      simp [commit_files_action_from_gitaly_request]

/-- C9: for a stream in which every action's content chunks arrive after that
action's header and before the next header, the assembly loop reconstructs,
for every plan and every chunking, exactly the declared actions with each
action's content equal to the concatenation of its own chunks. -/
theorem commit_files_roundtrip (plan : List (CommitActionHeader × List String)) :
    assemble_actions [] (planMessages plan) = .ok (planActions plan) := by
  simpa using assemble_actions_plan plan []

/-- C10: a `UserCommitFiles` stream whose first per-action message is a
content chunk hits the append-to-last-action on an empty action list; the
call dies with the bridged transport error for the nil access and never
produces the structured `index_error` outcome. -/
theorem commit_files_content_before_header
    (store : RefStore) (hook : HookOutcome) (indexProblem : Option String)
    (newCommitId : String) (header : CommitFilesHeader) (c : String)
    (rest : List CommitActionMsg) :
    user_commit_files store hook indexProblem newCommitId header
        (.content c :: rest) =
      (store, .error (.unknown "undefined method [] for nil")) := by
  rfl

/-! ## Claim C3: pre-receive rejection is an outcome, never a transport error -/

/-- C3: for every mutating operation — tag and branch create and delete,
fast-forward merge, cherry-pick, revert, rebase and multi-file commit — whose
pre-receive hook rejects the update, the RPC completes as a successful
response whose `pre_receive_error` field carries the hook's captured output
(all other outcome fields at their defaults, no transport error), and the ref
store, hence the target ref, is left unchanged. -/
theorem pre_receive_rejection_is_outcome_not_error
    (store : RefStore) (m : String)
    (tagReq : UserCreateTagRequest) (u1 : User) (oid : String)
    (h1 : tagReq.user = some u1) (h2 : rubyPresent tagReq.tagName = true)
    (h3 : rubyPresent tagReq.targetRevision = true)
    (h4 : store.lookup ("refs/tags/" ++ tagReq.tagName) = none)
    (delTagReq : UserDeleteTagRequest) (u2 : User) (v2 : String)
    (h5 : delTagReq.user = some u2) (h6 : rubyBlank delTagReq.tagName = false)
    (h7 : store.lookup ("refs/tags/" ++ delTagReq.tagName) = some v2)
    (cbReq : UserCreateBranchRequest) (u3 : User) (oid3 : String)
    (h8 : cbReq.startPoint ≠ "") (h9 : cbReq.user = some u3)
    (dbReq : UserDeleteBranchRequest) (v4 : String)
    (h10 : store.lookup ("refs/heads/" ++ dbReq.branchName) = some v4)
    (ffReq : UserFFBranchRequest)
    (pickReq : UserCherryPickRequest) (cid : String)
    (rebaseReq : UserRebaseRequest) (sha : String)
    (cfHeader : CommitFilesHeader) (cfMsgs : List CommitActionMsg)
    (acts : List CommitAction) (h11 : assemble_actions [] cfMsgs = .ok acts)
    (ncid : String) :
    user_create_tag store (.rejected m) (some oid) tagReq =
      (store, .ok { preReceiveError := m }) ∧
    user_delete_tag store (.rejected m) delTagReq =
      (store, .ok { preReceiveError := m }) ∧
    user_create_branch store (.rejected m) (some oid3) cbReq =
      (store, .ok { preReceiveError := m }) ∧
    user_delete_branch store (.rejected m) dbReq =
      (store, .ok { preReceiveError := m }) ∧
    user_ff_branch store (.rejected m) true true ffReq =
      (store, .ok { preReceiveError := m }) ∧
    user_cherry_pick store (.rejected m) ⟨none, none, cid⟩ pickReq =
      (store, .ok { preReceiveError := m }) ∧
    user_revert store (.rejected m) ⟨none, none, cid⟩ pickReq =
      (store, .ok { preReceiveError := m }) ∧
    user_rebase store (.rejected m) none sha rebaseReq =
      (store, .ok { preReceiveError := m }) ∧
    user_commit_files store (.rejected m) none ncid cfHeader cfMsgs =
      (store, .ok { preReceiveError := m }) := by
  refine ⟨?_, ?_, ?_, ?_, ?_, ?_, ?_, ?_, ?_⟩
  · simp [user_create_tag, repo_add_tag, h1, h2, h3, h4]
  · simp [user_delete_tag, repo_rm_tag, h5, h6, h7]
  · simp [user_create_branch, repo_add_branch, h8, h9]
  · simp [user_delete_branch, repo_rm_branch, h10]
  · simp [user_ff_branch, repo_ff_merge]
  · simp [user_cherry_pick, repo_pick_or_revert]
  · simp [user_revert, repo_pick_or_revert]
  · simp [user_rebase, repo_rebase]
  · simp [user_commit_files, repo_multi_action, h11]

theorem pre_receive_rejection_is_outcome_not_error_witness :
    user_create_tag [("refs/tags/old", "x"), ("refs/heads/b", "y")]
        (.rejected "hook says no") (some "def0") ⟨some ⟨"u"⟩, "v1", "HEAD", ""⟩ =
      ([("refs/tags/old", "x"), ("refs/heads/b", "y")],
       .ok { preReceiveError := "hook says no" }) ∧
    user_delete_tag [("refs/tags/old", "x"), ("refs/heads/b", "y")]
        (.rejected "hook says no") ⟨some ⟨"u"⟩, "old"⟩ =
      ([("refs/tags/old", "x"), ("refs/heads/b", "y")],
       .ok { preReceiveError := "hook says no" }) ∧
    user_create_branch [("refs/tags/old", "x"), ("refs/heads/b", "y")]
        (.rejected "hook says no") (some "def0") ⟨some ⟨"u"⟩, "nb", "HEAD"⟩ =
      ([("refs/tags/old", "x"), ("refs/heads/b", "y")],
       .ok { preReceiveError := "hook says no" }) ∧
    user_delete_branch [("refs/tags/old", "x"), ("refs/heads/b", "y")]
        (.rejected "hook says no") ⟨some ⟨"u"⟩, "b"⟩ =
      ([("refs/tags/old", "x"), ("refs/heads/b", "y")],
       .ok { preReceiveError := "hook says no" }) ∧
    user_ff_branch [("refs/tags/old", "x"), ("refs/heads/b", "y")]
        (.rejected "hook says no") true true ⟨some ⟨"u"⟩, "c0", "b"⟩ =
      ([("refs/tags/old", "x"), ("refs/heads/b", "y")],
       .ok { preReceiveError := "hook says no" }) ∧
    user_cherry_pick [("refs/tags/old", "x"), ("refs/heads/b", "y")]
        (.rejected "hook says no") ⟨none, none, "c1"⟩ ⟨some ⟨"u"⟩, "c0", "b", "pick"⟩ =
      ([("refs/tags/old", "x"), ("refs/heads/b", "y")],
       .ok { preReceiveError := "hook says no" }) ∧
    user_revert [("refs/tags/old", "x"), ("refs/heads/b", "y")]
        (.rejected "hook says no") ⟨none, none, "c1"⟩ ⟨some ⟨"u"⟩, "c0", "b", "pick"⟩ =
      ([("refs/tags/old", "x"), ("refs/heads/b", "y")],
       .ok { preReceiveError := "hook says no" }) ∧
    user_rebase [("refs/tags/old", "x"), ("refs/heads/b", "y")]
        (.rejected "hook says no") none "sha1" ⟨some ⟨"u"⟩, "r1", "b", "s", "rb"⟩ =
      ([("refs/tags/old", "x"), ("refs/heads/b", "y")],
       .ok { preReceiveError := "hook says no" }) ∧
    user_commit_files [("refs/tags/old", "x"), ("refs/heads/b", "y")]
        (.rejected "hook says no") none "c9" ⟨some ⟨"u"⟩, "b", "msg"⟩
        [.header ⟨"CREATE", "f", "", false⟩] =
      ([("refs/tags/old", "x"), ("refs/heads/b", "y")],
       .ok { preReceiveError := "hook says no" }) :=
  pre_receive_rejection_is_outcome_not_error
    [("refs/tags/old", "x"), ("refs/heads/b", "y")] "hook says no"
    ⟨some ⟨"u"⟩, "v1", "HEAD", ""⟩ ⟨"u"⟩ "def0" rfl (by decide) (by decide) rfl
    ⟨some ⟨"u"⟩, "old"⟩ ⟨"u"⟩ "x" rfl (by decide) rfl
    ⟨some ⟨"u"⟩, "nb", "HEAD"⟩ ⟨"u"⟩ "def0" (by decide) rfl
    ⟨some ⟨"u"⟩, "b"⟩ "y" rfl
    ⟨some ⟨"u"⟩, "c0", "b"⟩
    ⟨some ⟨"u"⟩, "c0", "b", "pick"⟩ "c1"
    ⟨some ⟨"u"⟩, "r1", "b", "s", "rb"⟩ "sha1"
    ⟨some ⟨"u"⟩, "b", "msg"⟩ [.header ⟨"CREATE", "f", "", false⟩]
    [⟨"create", "f", "", "", ""⟩] rfl "c9"

end Gitaly
